import Mathlib

/-!
# ConstrainedBenchmark

A shallow embedding of `demos/ConstrainedBenchmark.cpp`: the option loop of `main`, the
selection of the constrained state space, the per-space setup, planner configuration,
bounds, the pre-run event and the saving of the results.

Conventions of the embedding.

* `double` values are rationals (`Rat`); `unsigned int` values are naturals below `2^32`.
* The command line is the sequence of results that `getopt` hands to the loop of `main`
  (option character and `optarg`), in the order in which `getopt` returns them.
* Collaborators that live outside the file (the problem and planner catalogs, `atof`, the
  planner's `solve`) are fields of `Env`.
* Standard output is a list of `Out` items.
-/

namespace ConstrainedBenchmark

/-! ## File-level constants -/

def memory_limit : Rat := 2048
def update_interval : Rat := 1 / 10
def progress : Bool := false
def save_output : Bool := false
def use_threads : Bool := false
def simplify : Bool := true

/-- The three constrained state spaces, `enum SPACE`. -/
inductive SPACE
  | ATLAS
  | PROJECTED
  | NULLSPACE
  deriving DecidableEq, Repr

/-- An `Eigen::VectorXd`. -/
abbrev Point := List Rat

/-! ## Standard output -/

/-- One item written to standard output. -/
inductive Out
  /-- Characters sent to `std::cout`. -/
  | text (s : String)
  /-- The listing printed by `printProblems()`. -/
  | problems
  /-- The listing printed by `printPlanners()`. -/
  | planners
  /-- The `printf` banner with its seven arguments. -/
  | banner (space plannerName problem : String) (ambient co : Nat) (timeout delay : Rat)
  /-- The description printed by `ss->print(std::cout)`. -/
  | spaceDescription
  deriving DecidableEq, Repr

/-! ## C library conversions -/

/-- The characters `isspace` accepts in the C locale. -/
def isspace (c : Char) : Bool :=
  c = ' ' || c = '\t' || c = '\n' || c.toNat = 11 || c.toNat = 12 || c = '\r'

/-- Value of the longest run of decimal digits at the head of the list. -/
def digitsValue : List Char → Nat → Nat
  | [], acc => acc
  | c :: cs, acc => if c.isDigit then digitsValue cs (acc * 10 + (c.toNat - 48)) else acc

/-- The C library `atoi`: leading white space, an optional sign, then decimal digits;
    anything else ends the number, and no digits at all gives 0. C leaves the result
    undefined for a number outside the range of `int`; the number itself is returned
    here. -/
def atoi (s : String) : Int :=
  match s.toList.dropWhile isspace with
  | '-' :: r => -((digitsValue r 0 : Nat) : Int)
  | '+' :: r => ((digitsValue r 0 : Nat) : Int)
  | r => ((digitsValue r 0 : Nat) : Int)

/-- Conversion of an `int` to `unsigned int` (32 bits). -/
def toUnsigned (i : Int) : Nat := (i % 4294967296).toNat

/-! ## Data of the driver -/

/-- One result of `getopt`: the option character it returned and `optarg`. An option
    that `getopt` does not know, or one whose argument is missing, arrives as `'?'`. -/
structure Opt where
  c : Char
  optarg : String
  deriving DecidableEq, Repr

/-- The local variables of `main` that the option loop assigns, with their initial
    values. -/
structure Args where
  plannerName : String := "RRTConnect"
  problem : String := "sphere"
  space : String := "projected"
  output : Option String := none
  artificalSleep : Rat := 0
  planningTime : Rat := 5
  tb : Bool := true
  printSpace : Bool := false
  runs : Nat := 100
  links : Nat := 5
  chains : Nat := 2
  deriving DecidableEq, Repr

/-- The constraint object returned by `parseProblem`. -/
structure Constraint where
  ambientDimension : Nat
  coDimension : Nat
  deriving DecidableEq, Repr

/-- What `parseProblem` delivers: the constraint and the three out-parameters. -/
structure Problem where
  constraint : Constraint
  x : Point
  y : Point
  isValid : Point → Bool

/-- The two valid-state-sampler allocators of `ConstrainedPlanningCommon.h`. -/
inductive Allocator
  | avssa
  | pvssa
  deriving DecidableEq, Repr

/-- A chart of the atlas. -/
structure Chart where
  origin : Point
  anchor : Bool
  deriving DecidableEq, Repr

/-- The projections that `main` registers. -/
inductive ProjectionEvaluator
  | SphereProjection
  | ChainProjection (dim links : Nat)
  | StewartProjection (links chains : Nat)
  deriving DecidableEq, Repr

/-- The constrained state space `css`. The atlas parameters are `none` where `main`
    leaves the defaults of the library; `alphaPiOver = some k` stands for `M_PI / k`. -/
structure ConstrainedStateSpace where
  kind : SPACE
  ambientDimension : Nat
  coDimension : Nat
  rho : Option Rat := none
  alphaPiOver : Option Nat := none
  epsilon : Option Rat := none
  separate : Option Bool := none
  charts : List Chart := []
  cache : List Point := []
  projections : List (String × ProjectionEvaluator) := []
  low : List Rat := []
  high : List Rat := []
  deriving DecidableEq, Repr

/-- A start or goal state: its real coordinates and, in the atlas, the chart it is
    attached to (an index into the charts of the space). -/
structure AnchoredState where
  real : Point
  chart : Option Nat
  deriving DecidableEq, Repr

/-- The planner object. -/
structure Planner where
  name : String
  range : Rat
  projection : Option String := none
  searchState : List Point := []
  deriving DecidableEq, Repr

/-- How one trial ended. -/
inductive TrialOutcome
  | solved
  | failed
  | timedOut
  deriving DecidableEq, Repr

/-- What one planning call leaves behind: its outcome and the transient contents of the
    space and of the planner. -/
structure TrialEffect where
  outcome : TrialOutcome
  charts : List Chart
  cache : List Point
  searchState : List Point
  deriving DecidableEq, Repr

/-- The `Benchmark::Request`. -/
structure Request where
  maxTime : Rat
  maxMem : Rat
  runCount : Nat
  timeBetweenUpdates : Rat
  displayProgress : Bool
  saveConsoleOutput : Bool
  useThreads : Bool
  simplify : Bool
  deriving DecidableEq, Repr

/-- A value handed to `addExperimentParameter` before `std::to_string`. -/
inductive ParamValue
  | integer (n : Nat)
  | real (q : Rat)
  deriving DecidableEq, Repr

/-- What the trial controller did, in order. -/
inductive Event
  /-- The pre-run event of cycle `j` (counted from 0) has returned. -/
  | preRun (j : Nat)
  /-- The trial of cycle `j` has returned with the given outcome. -/
  | trial (j : Nat) (o : TrialOutcome)
  deriving DecidableEq, Repr

/-- The mutable state the trials share: the space, the planner, the static counter
    `run` of the pre-run event, standard output, and the record of the controller. -/
structure World where
  css : ConstrainedStateSpace
  planner : Planner
  run : Nat
  out : List Out
  events : List Event
  deriving DecidableEq, Repr

/-- The collaborators of `main` that are not part of the file. -/
structure Env where
  /-- The C library `atof`. -/
  atof : String → Rat
  /-- Catalog lookup `parseProblem(problem, x, y, isValid, sleep, links, chains)`. -/
  parseProblem : String → Rat → Nat → Nat → Option Problem
  /-- Catalog lookup `parsePlanner(plannerName, si, range)`. -/
  parsePlanner : String → Rat → Option Planner
  /-- Whether the planner object accepts a projection evaluator. -/
  acceptsProjection : Planner → Bool
  /-- One planning call: run index, space and planner at the start of the call. -/
  solve : Nat → ConstrainedStateSpace → Planner → TrialEffect

/-- The state right after the `switch (spaceType)` of `main`. -/
structure Setup where
  css : ConstrainedStateSpace
  allocator : Allocator
  start : AnchoredState
  goal : AnchoredState
  newName : String
  deriving DecidableEq, Repr

/-- Everything `main` built and did when it runs to its end. -/
structure Final where
  args : Args
  spaceType : SPACE
  problem : Problem
  setup : Setup
  validityChecker : Point → Bool
  originalName : String
  bindAttempt : Option (String × String)
  bound : Rat
  configured : World
  params : List (String × String × ParamValue)
  request : Request
  world : World
  saved : List String

/-- How the process ends. -/
inductive Result
  /-- The call `exit(status)` inside `usage`, with standard output up to there. -/
  | exited (status : Nat) (out : List Out)
  /-- Running `main` to its end. -/
  | returned (f : Final)

/-! ## The functions of the file -/

/-- Print usage information. Does not return. -/
def usage (progname : String) (out : List Out) : Result :=
  .exited 0 (out ++
    [.text ("Usage: " ++ progname ++
        " -c <problem> -p <planner> -s <space> -t <timelimit> -w <sleep> -o\n"),
     .problems, .planners])

/-- The body of the `switch (c)` in the option loop; `none` is the `default` label,
    which calls `usage`. -/
def optionStep (env : Env) (a : Args) (o : Opt) : Option Args :=
  if o.c = 'f' then some { a with output := some o.optarg }
  else if o.c = 'r' then some { a with runs := toUnsigned (atoi o.optarg) }
  else if o.c = 'y' then some { a with printSpace := true }
  else if o.c = 'c' then some { a with problem := o.optarg }
  else if o.c = 'g' then some { a with chains := toUnsigned (atoi o.optarg) }
  else if o.c = 'a' then some { a with tb := false }
  else if o.c = 'p' then some { a with plannerName := o.optarg }
  else if o.c = 's' then some { a with space := o.optarg }
  else if o.c = 'w' then some { a with artificalSleep := env.atof o.optarg }
  else if o.c = 't' then some { a with planningTime := env.atof o.optarg }
  else if o.c = 'n' then some { a with links := toUnsigned (atoi o.optarg) }
  else none

/-- The `while ((c = getopt(...)) != -1)` loop; `none` when `usage` was called. -/
def optionLoop (env : Env) : List Opt → Args → Option Args
  | [], a => some a
  | o :: os, a =>
    match optionStep env a o with
    | none => none
    | some a1 => optionLoop env os a1

/-- The `strcmp` chain on the space name; `none` is the final `else`, which calls
    `usage`. -/
def selectSpace (space : String) : Option SPACE :=
  if space = "atlas" then some .ATLAS
  else if space = "projected" then some .PROJECTED
  else if space = "null" then some .NULLSPACE
  else none

/-- Modelled from the spec: `AtlasStateSpace::anchorChart`, which is not part of the
    file. It creates one chart at the given point, owned by the space, and returns a
    reference to it (here its index). -/
def anchorChart (s : ConstrainedStateSpace) (p : Point) : ConstrainedStateSpace × Nat :=
  ({ s with charts := s.charts ++ [{ origin := p, anchor := true }] }, s.charts.length)

/-- The `switch (spaceType)` of `main`. -/
def switchSpace (spaceType : SPACE) (constraint : Constraint) (x y : Point) (tb : Bool) :
    Setup :=
  match spaceType with
  | .ATLAS =>
    let atlas : ConstrainedStateSpace :=
      { kind := .ATLAS, ambientDimension := constraint.ambientDimension,
        coDimension := constraint.coDimension,
        rho := some (1 / 2), alphaPiOver := some 8, epsilon := some (1 / 5),
        separate := some tb }
    let (atlas1, startChart) := anchorChart atlas x
    let (atlas2, goalChart) := anchorChart atlas1 y
    { css := atlas2, allocator := .avssa,
      start := { real := x, chart := some startChart },
      goal := { real := y, chart := some goalChart },
      newName := "+" ++ "A" }
  | .PROJECTED =>
    let proj : ConstrainedStateSpace :=
      { kind := .PROJECTED, ambientDimension := constraint.ambientDimension,
        coDimension := constraint.coDimension }
    { css := proj, allocator := .pvssa,
      start := { real := x, chart := none },
      goal := { real := y, chart := none },
      newName := "+" ++ "P" }
  | .NULLSPACE =>
    let proj : ConstrainedStateSpace :=
      { kind := .NULLSPACE, ambientDimension := constraint.ambientDimension,
        coDimension := constraint.coDimension }
    { css := proj, allocator := .pvssa,
      start := { real := x, chart := none },
      goal := { real := y, chart := none },
      newName := "+" ++ "N" }

/-- Modelled from the spec: `StateSpace::registerProjection`, which is not part of the
    file. Registering a name that is already present replaces the earlier entry. -/
def registerProjection (s : ConstrainedStateSpace) (name : String)
    (p : ProjectionEvaluator) : ConstrainedStateSpace :=
  { s with projections := s.projections.filter (fun e => e.1 != name) ++ [(name, p)] }

/-- Modelled from the spec: `setProjectionEvaluator(name)` of a planner, which is not part
    of the file. It raises (`none`) when the planner does not accept a projection or the
    name is not registered with the space. -/
def setProjectionEvaluator (env : Env) (p : Planner) (name : String)
    (s : ConstrainedStateSpace) : Option Planner :=
  if env.acceptsProjection p = true ∧ name ∈ s.projections.map Prod.fst then
    some { p with projection := some name }
  else none

/-- The planner type named in the `strcmp` chain inside the `try` block, if any. -/
def projectionCast (plannerName : String) : Option String :=
  if plannerName = "KPIECE1" then some "KPIECE1"
  else if plannerName = "BKPIECE1" then some "BKPIECE1"
  else if plannerName = "LBKPIECE1" then some "LBKPIECE1"
  else if plannerName = "ProjEST" then some "ProjEST"
  else if plannerName = "PDST" then some "PDST"
  else if plannerName = "SBL" then some "SBL"
  else if plannerName = "STRIDE" then some "STRIDE"
  else none

/-- The `try { ... } catch (std::exception &e) { }` block: the planner afterwards. -/
def tryProjection (env : Env) (plannerName problem : String) (p : Planner)
    (s : ConstrainedStateSpace) : Planner :=
  match projectionCast plannerName with
  | none => p
  | some _ =>
    match setProjectionEvaluator env p problem s with
    | some p1 => p1
    | none => p

/-- The value of `double bound`. -/
def boundOf (problem : String) (links : Nat) : Rat :=
  if problem = "chain" then (links : Rat) else 20

/-- The calls `bounds.setLow(-bound); bounds.setHigh(bound); setBounds(bounds)` on a
    `RealVectorBounds` of the ambient dimension. -/
def setBounds (s : ConstrainedStateSpace) (bound : Rat) : ConstrainedStateSpace :=
  { s with low := List.replicate s.ambientDimension (-bound),
           high := List.replicate s.ambientDimension bound }

/-- Modelled from the spec: `AtlasStateSpace::clear`, which is not part of the file. It
    discards all charts, the anchor charts included, and the cache of the space. -/
def AtlasStateSpace.clear (s : ConstrainedStateSpace) : ConstrainedStateSpace :=
  { s with charts := [], cache := [] }

/-- Modelled from the spec: `ConstrainedStateSpace::clear`, which is not part of the
    file. It clears the internal cache of the space. -/
def ConstrainedStateSpace.clear (s : ConstrainedStateSpace) : ConstrainedStateSpace :=
  { s with cache := [] }

/-- Modelled from the spec: `Planner::clear`, which is not part of the file. It discards
    the transient search state and keeps the planner object. -/
def Planner.clear (p : Planner) : Planner :=
  { p with searchState := [] }

/-- The lambda given to `setPreRunEvent`. -/
def preRunEvent (spaceType : SPACE) (w : World) : World :=
  let out := w.out ++ [.text (w.planner.name ++ " run " ++ toString w.run ++ "\n")]
  let run := (w.run + 1) % 4294967296
  let css := if spaceType = .ATLAS then AtlasStateSpace.clear w.css
             else ConstrainedStateSpace.clear w.css
  { w with out := out, run := run, css := css, planner := Planner.clear w.planner }

/-- The planning call of one trial: the effect of `solve` on the shared state. -/
def runTrial (env : Env) (j : Nat) (w : World) : World :=
  let e := env.solve j w.css w.planner
  { w with css := { w.css with charts := e.charts, cache := e.cache },
           planner := { w.planner with searchState := e.searchState },
           events := w.events ++ [.trial j e.outcome] }

/-- Modelled from the spec: the loop of `Benchmark::benchmark`, which is not part of the
    file. With threads disabled it runs the remaining cycles one after another, each
    being the pre-run event followed by the trial, whatever the outcome of a trial. -/
def cycles (env : Env) (hook : World → World) : Nat → Nat → World → World
  | 0, _, w => w
  | k + 1, j, w =>
    let w1 := hook w
    let w2 := { w1 with events := w1.events ++ [.preRun j] }
    cycles env hook k (j + 1) (runTrial env j w2)

/-- Modelled from the spec: `Benchmark::benchmark(request)`, which is not part of the
    file: `runCount` cycles, starting with cycle 0. -/
def benchmark (env : Env) (hook : World → World) (request : Request) (w : World) : World :=
  cycles env hook request.runCount 0 w

/-- The experiment parameters added to the benchmark. -/
def experimentParameters (a : Args) (css : ConstrainedStateSpace) (constraint : Constraint) :
    List (String × String × ParamValue) :=
  [("ambient_dimension", "INTEGER", .integer css.ambientDimension),
   ("manifold_dimension", "INTEGER", .integer (css.ambientDimension - css.coDimension)),
   ("co_dimension", "INTEGER", .integer constraint.coDimension),
   ("collision_check_time", "REAL", .real a.artificalSleep)] ++
  (if a.problem = "chain" then [("links", "INTEGER", .integer a.links)]
   else if a.problem = "stewart" then
     [("links", "INTEGER", .integer a.links), ("chains", "INTEGER", .integer a.chains)]
   else [])

/-- The part of `main` after the planner was found, up to its end. -/
def configureAndRun (env : Env) (a : Args) (spaceType : SPACE) (pb : Problem) (s : Setup)
    (planner0 : Planner) (out : List Out) : Final :=
  let planner1 : Planner := { planner0 with name := planner0.name ++ s.newName }
  let css1 := registerProjection s.css "sphere" .SphereProjection
  let css2 := registerProjection css1 "chain" (.ChainProjection 3 a.links)
  let css3 := registerProjection css2 "stewart" (.StewartProjection a.links a.chains)
  let bound := boundOf a.problem a.links
  let planner2 := tryProjection env a.plannerName a.problem planner1 css3
  let css4 := setBounds css3 bound
  let out1 := if a.printSpace then out ++ [.spaceDescription] else out
  let request : Request :=
    { maxTime := a.planningTime, maxMem := memory_limit, runCount := a.runs,
      timeBetweenUpdates := update_interval, displayProgress := progress,
      saveConsoleOutput := save_output, useThreads := use_threads, simplify := simplify }
  let w0 : World := { css := css4, planner := planner2, run := 1, out := out1, events := [] }
  let w := benchmark env (preRunEvent spaceType) request w0
  let file :=
    match a.output with
    | none => w.planner.name ++ "_on_" ++ a.problem ++ ".log"
    | some o => o
  { args := a, spaceType := spaceType, problem := pb, setup := s,
    validityChecker := pb.isValid, originalName := planner0.name,
    bindAttempt := (projectionCast a.plannerName).map (fun t => (t, a.problem)),
    bound := bound, configured := w0,
    params := experimentParameters a css4 pb.constraint,
    request := request, world := w, saved := [file] }

/-- The function `main`: `progname` is `argv[0]`, `opts` what `getopt` returns. -/
def main (env : Env) (progname : String) (opts : List Opt) : Result :=
  match optionLoop env opts {} with
  | none => usage progname []
  | some a =>
    match selectSpace a.space with
    | none => usage progname [.text "Invalid constrained state space.\n"]
    | some spaceType =>
      match env.parseProblem a.problem a.artificalSleep a.links a.chains with
      | none => usage progname [.text "Invalid problem.\n"]
      | some pb =>
        let out := [Out.banner a.space a.plannerName a.problem pb.constraint.ambientDimension
                      pb.constraint.coDimension a.planningTime a.artificalSleep]
        let s := switchSpace spaceType pb.constraint pb.x pb.y a.tb
        match env.parsePlanner a.plannerName 1 with
        | none => usage progname (out ++ [.text "Invalid planner.\n"])
        | some planner0 => .returned (configureAndRun env a spaceType pb s planner0 out)


/-! ## Reading the command line as a whole -/

/-- The option characters that have a `case` label in the option loop. -/
def optionChars : List Char := ['f', 'r', 'y', 'c', 'g', 'a', 'p', 's', 'w', 't', 'n']

/-- The argument of the last occurrence of option `c` on the command line. -/
def lastArg (c : Char) : List Opt → Option String
  | [] => none
  | o :: os =>
    if o.c = c then some ((lastArg c os).getD o.optarg) else lastArg c os

/-- Whether option `c` occurs on the command line. -/
def hasFlag (c : Char) : List Opt → Bool
  | [] => false
  | o :: os => decide (o.c = c) || hasFlag c os

/-- The option variables as the command line states them: each one is the converted
    argument of the last occurrence of its option, or the value in `a` when the option is
    absent. -/
def overrideArgs (env : Env) (opts : List Opt) (a : Args) : Args :=
  { plannerName := (lastArg 'p' opts).getD a.plannerName
    problem := (lastArg 'c' opts).getD a.problem
    space := (lastArg 's' opts).getD a.space
    output := (lastArg 'f' opts).elim a.output some
    artificalSleep := (lastArg 'w' opts).elim a.artificalSleep env.atof
    planningTime := (lastArg 't' opts).elim a.planningTime env.atof
    tb := a.tb && !hasFlag 'a' opts
    printSpace := a.printSpace || hasFlag 'y' opts
    runs := (lastArg 'r' opts).elim a.runs (fun s => toUnsigned (atoi s))
    links := (lastArg 'n' opts).elim a.links (fun s => toUnsigned (atoi s))
    chains := (lastArg 'g' opts).elim a.chains (fun s => toUnsigned (atoi s)) }

/-- The option variables for a command line, starting from the initial values. -/
def commandLineArgs (env : Env) (opts : List Opt) : Args := overrideArgs env opts {}

/-! ## Observations on the result of `main` -/

/-- The final record when `main` ran to its end. -/
def Result.final : Result → Option Final
  | .exited _ _ => none
  | .returned f => some f

/-- The cycles the trial controller ran. -/
def Result.events : Result → List Event
  | .exited _ _ => []
  | .returned f => f.world.events

/-- The destinations results were saved to. -/
def Result.saved : Result → List String
  | .exited _ _ => []
  | .returned f => f.saved

/-- The suffix that names a space in the planner name. -/
def suffixOf : SPACE → String
  | .ATLAS => "+A"
  | .PROJECTED => "+P"
  | .NULLSPACE => "+N"

/-- The log line of the pre-run event for run index `k`. -/
def runLine (name : String) (k : Nat) : Out :=
  .text (name ++ " run " ++ toString k ++ "\n")

/-- The lines the usage function prints. -/
def usageText (progname : String) : List Out :=
  [.text ("Usage: " ++ progname ++
      " -c <problem> -p <planner> -s <space> -t <timelimit> -w <sleep> -o\n"),
   .problems, .planners]

/-- The cycles of `k` trials run one after another from cycle `j` on, with the outcome
    `o i` for cycle `i`: the pre-run event of a cycle, then its trial. -/
def sequentialCycles (o : Nat → TrialOutcome) : Nat → Nat → List Event
  | 0, _ => []
  | k + 1, j => .preRun j :: .trial j (o j) :: sequentialCycles o k (j + 1)

/-- The names of the planners for which `main` tries to set a projection. -/
def projectionPlanners : List String :=
  ["KPIECE1", "BKPIECE1", "LBKPIECE1", "ProjEST", "PDST", "SBL", "STRIDE"]

/-! ## Sample collaborators and command lines -/

/-- A catalog with the problems `sphere` and `chain` and the planners `RRTConnect` and
    `KPIECE1`; on the sphere every state is valid but the start point itself. -/
def sampleEnv : Env :=
  { atof := fun s => ((atoi s : Int) : Rat)
    parseProblem := fun name _ links _ =>
      if name = "sphere" then
        some { constraint := { ambientDimension := 3, coDimension := 1 },
               x := [0, 0, -1], y := [0, 0, 1], isValid := fun p => decide (p ≠ [0, 0, -1]) }
      else if name = "chain" then
        some { constraint := { ambientDimension := 3 * links, coDimension := links },
               x := List.replicate (3 * links) 0, y := List.replicate (3 * links) 1,
               isValid := fun _ => true }
      else none
    parsePlanner := fun name range =>
      if name = "RRTConnect" ∨ name = "KPIECE1" then some { name := name, range := range }
      else none
    acceptsProjection := fun p => decide (p.name ∈ ["KPIECE1+A", "KPIECE1+P", "KPIECE1+N"])
    solve := fun j _ _ =>
      { outcome := if j % 2 = 0 then .solved else .timedOut,
        charts := [{ origin := [0, 1, 0], anchor := false }],
        cache := [[0, 1, 0]], searchState := [[0, 1, 0]] } }

/-- The command line `-s atlas -c sphere -r 3 -t 1`. -/
def atlasSphere : List Opt :=
  [⟨'s', "atlas"⟩, ⟨'c', "sphere"⟩, ⟨'r', "3"⟩, ⟨'t', "1"⟩]

/-- The command line `-s projected -c chain -n 7 -r 2`. -/
def projectedChain : List Opt :=
  [⟨'s', "projected"⟩, ⟨'c', "chain"⟩, ⟨'n', "7"⟩, ⟨'r', "2"⟩]

/-- The command line `-p KPIECE1 -c sphere -r 1 -s null`. -/
def kpieceSphere : List Opt :=
  [⟨'p', "KPIECE1"⟩, ⟨'c', "sphere"⟩, ⟨'r', "1"⟩, ⟨'s', "null"⟩]

/-- The command line `-r 2`. -/
def twoRuns : List Opt := [⟨'r', "2"⟩]

/-- The command line `-t 0`. -/
def zeroTime : List Opt := [⟨'t', "0"⟩]

/-- The command line `-r 0`. -/
def zeroRuns : List Opt := [⟨'r', "0"⟩]

/-- The command line `-p NoSuchPlanner`. -/
def unknownPlanner : List Opt := [⟨'p', "NoSuchPlanner"⟩]

/-! ## Lemmas on the option loop -/

theorem optionStep_eq_none (env : Env) (a : Args) (o : Opt) (h : o.c ∉ optionChars) :
    optionStep env a o = none := by
  simp only [optionChars, List.mem_cons, List.mem_singleton, not_or, List.not_mem_nil,
    or_false] at h
  obtain ⟨h1, h2, h3, h4, h5, h6, h7, h8, h9, h10, h11⟩ := h
  simp [optionStep, h1, h2, h3, h4, h5, h6, h7, h8, h9, h10, h11]

theorem optionLoop_eq_none (env : Env) (opts : List Opt) (a : Args)
    (h : ∃ o ∈ opts, o.c ∉ optionChars) : optionLoop env opts a = none := by
  induction opts generalizing a with
  | nil => simp at h
  | cons o os ih =>
    simp only [optionLoop]
    cases hs : optionStep env a o with
    | none => rfl
    | some a1 =>
      simp only
      apply ih
      obtain ⟨o1, ho1, hc⟩ := h
      rcases List.mem_cons.mp ho1 with rfl | hm
      · rw [optionStep_eq_none env a o1 hc] at hs
        cases hs
      · exact ⟨o1, hm, hc⟩

theorem lastArg_cons_elim {β : Type} (c : Char) (o : Opt) (os : List Opt) (d : β)
    (g : String → β) :
    (lastArg c (o :: os)).elim d g =
      if o.c = c then (lastArg c os).elim (g o.optarg) g else (lastArg c os).elim d g := by
  simp only [lastArg]
  split_ifs
  · cases lastArg c os <;> rfl
  · rfl

theorem lastArg_cons_getD (c : Char) (o : Opt) (os : List Opt) (d : String) :
    (lastArg c (o :: os)).getD d =
      if o.c = c then (lastArg c os).getD o.optarg else (lastArg c os).getD d := by
  simp only [lastArg]
  split_ifs
  · cases lastArg c os <;> rfl
  · rfl

theorem optionLoop_eq_some (env : Env) (opts : List Opt) (a : Args)
    (h : ∀ o ∈ opts, o.c ∈ optionChars) :
    optionLoop env opts a = some (overrideArgs env opts a) := by
  induction opts generalizing a with
  | nil => cases a; simp [optionLoop, overrideArgs, lastArg, hasFlag]
  | cons o os ih =>
    have ho : o.c ∈ optionChars := h o (List.mem_cons_self _ _)
    have hos : ∀ o1 ∈ os, o1.c ∈ optionChars := fun o1 h1 => h o1 (List.mem_cons_of_mem _ h1)
    simp only [optionChars, List.mem_cons, List.mem_singleton, List.not_mem_nil,
      or_false] at ho
    rcases ho with hc | hc | hc | hc | hc | hc | hc | hc | hc | hc | hc <;>
    · simp only [optionLoop, optionStep, hc, Char.reduceEq, if_true, if_false, ↓reduceIte]
      rw [ih _ hos]
      simp only [overrideArgs, lastArg_cons_elim, lastArg_cons_getD, hasFlag, hc,
        Char.reduceEq]
      cases a
      simp

theorem toUnsigned_lt (i : Int) : toUnsigned i < 4294967296 := by
  unfold toUnsigned
  have h1 : i % 4294967296 < 4294967296 := Int.emod_lt_of_pos _ (by norm_num)
  have h2 : 0 ≤ i % 4294967296 := Int.emod_nonneg _ (by norm_num)
  omega

theorem commandLineArgs_runs_lt (env : Env) (opts : List Opt) :
    (commandLineArgs env opts).runs < 4294967296 := by
  simp only [commandLineArgs, overrideArgs]
  cases lastArg 'r' opts with
  | none => simp
  | some s => simpa using toUnsigned_lt _

/-! ## Lemmas on the cycles of the trial controller -/

theorem sequentialCycles_congr (o o1 : Nat → TrialOutcome) (k j : Nat)
    (h : ∀ i, j ≤ i → o i = o1 i) : sequentialCycles o k j = sequentialCycles o1 k j := by
  induction k generalizing j with
  | zero => rfl
  | succ k ih =>
    simp only [sequentialCycles]
    rw [h j (le_refl j), ih (j + 1) (fun i hi => h i (by omega))]

theorem sequentialCycles_length (o : Nat → TrialOutcome) (k j : Nat) :
    (sequentialCycles o k j).length = 2 * k := by
  induction k generalizing j with
  | zero => rfl
  | succ k ih => simp only [sequentialCycles, List.length_cons, ih]; omega

theorem cycles_spec (env : Env) (t : SPACE) (k j : Nat) (w : World)
    (hrun : w.run + k ≤ 4294967296) :
    ∃ o : Nat → TrialOutcome,
      (cycles env (preRunEvent t) k j w).events = w.events ++ sequentialCycles o k j ∧
      (cycles env (preRunEvent t) k j w).out =
        w.out ++ (List.range k).map (fun i => runLine w.planner.name (w.run + i)) ∧
      (cycles env (preRunEvent t) k j w).planner =
        { w.planner with searchState := (cycles env (preRunEvent t) k j w).planner.searchState } ∧
      (cycles env (preRunEvent t) k j w).css =
        { w.css with charts := (cycles env (preRunEvent t) k j w).css.charts,
                     cache := (cycles env (preRunEvent t) k j w).css.cache } := by
  induction k generalizing j w with
  | zero => exact ⟨fun _ => .solved, by simp [cycles, sequentialCycles]⟩
  | succ k ih =>
    let w1 : World :=
      runTrial env j
        { preRunEvent t w with events := (preRunEvent t w).events ++ [.preRun j] }
    have hstep : cycles env (preRunEvent t) (k + 1) j w = cycles env (preRunEvent t) k (j + 1) w1 :=
      rfl
    have hrun1 : w1.run + k ≤ 4294967296 := by
      have : w1.run = (w.run + 1) % 4294967296 := rfl
      have := Nat.mod_le (w.run + 1) 4294967296
      omega
    obtain ⟨o1, he, ho, hp, hc⟩ := ih (j + 1) w1 hrun1
    refine ⟨fun i => if i = j then (env.solve j (preRunEvent t w).css (preRunEvent t w).planner).outcome
      else o1 i, ?_, ?_, ?_, ?_⟩
    · rw [hstep, he]
      have hcong : sequentialCycles o1 k (j + 1) =
          sequentialCycles (fun i => if i = j then
            (env.solve j (preRunEvent t w).css (preRunEvent t w).planner).outcome else o1 i)
            k (j + 1) := by
        apply sequentialCycles_congr
        intro i hi
        have : i ≠ j := by omega
        simp [this]
      rw [hcong]
      simp [w1, runTrial, preRunEvent, sequentialCycles]
    · rw [hstep, ho]
      have hname : w1.planner.name = w.planner.name := rfl
      have hout : w1.out = w.out ++ [runLine w.planner.name w.run] := rfl
      rw [hname, hout, List.range_succ_eq_map]
      simp only [List.append_assoc, List.singleton_append, List.map_cons, List.map_map,
        Nat.add_zero]
      congr 2
      apply List.map_congr_left
      intro i hi
      have hik : i < k := List.mem_range.mp hi
      have hw : w1.run = w.run + 1 := by
        have : w1.run = (w.run + 1) % 4294967296 := rfl
        rw [this, Nat.mod_eq_of_lt (by omega)]
      simp only [Function.comp, hw]
      congr 1
      omega
    · rw [hstep]
      exact hp
    · have hcss : ∀ (c : List Chart) (ch : List Point),
          ({ w1.css with charts := c, cache := ch } : ConstrainedStateSpace) =
            { w.css with charts := c, cache := ch } := by
        intro c ch
        cases t <;> rfl
      rw [hstep]
      exact hc.trans (hcss _ _)


theorem cycles_events_of_outcomes (env : Env) (t : SPACE) (o : Nat → TrialOutcome)
    (ho : ∀ j s p, (env.solve j s p).outcome = o j) (k j : Nat) (w : World) :
    (cycles env (preRunEvent t) k j w).events = w.events ++ sequentialCycles o k j := by
  induction k generalizing j w with
  | zero => simp [cycles, sequentialCycles]
  | succ k ih =>
    simp only [cycles]
    rw [ih]
    simp [runTrial, sequentialCycles, ho, preRunEvent]

/-! ## Lemmas on `main` -/

theorem tryProjection_name (env : Env) (n pr : String) (p : Planner)
    (s : ConstrainedStateSpace) : (tryProjection env n pr p s).name = p.name := by
  unfold tryProjection setProjectionEvaluator
  split
  · rfl
  · split <;> rename_i h <;> split at h <;> simp_all
    cases h
    rfl

theorem projectionCast_eq (n : String) :
    projectionCast n = if n ∈ projectionPlanners then some n else none := by
  unfold projectionCast projectionPlanners
  split_ifs <;> simp_all

theorem registered_names (t : SPACE) (c : Constraint) (x y : Point) (tb : Bool)
    (links chains : Nat) :
    (registerProjection (registerProjection (registerProjection (switchSpace t c x y tb).css
      "sphere" .SphereProjection) "chain" (.ChainProjection 3 links)) "stewart"
      (.StewartProjection links chains)).projections.map Prod.fst =
      ["sphere", "chain", "stewart"] := by
  cases t <;> simp [registerProjection, switchSpace, anchorChart]

theorem switchSpace_newName (t : SPACE) (c : Constraint) (x y : Point) (tb : Bool) :
    (switchSpace t c x y tb).newName = suffixOf t := by
  cases t <;> rfl

theorem main_returned (env : Env) (progname : String) (opts : List Opt) (f : Final)
    (h : main env progname opts = .returned f) :
    (∀ o ∈ opts, o.c ∈ optionChars) ∧
    ∃ t pb p0,
      selectSpace (commandLineArgs env opts).space = some t ∧
      env.parseProblem (commandLineArgs env opts).problem
        (commandLineArgs env opts).artificalSleep (commandLineArgs env opts).links
        (commandLineArgs env opts).chains = some pb ∧
      env.parsePlanner (commandLineArgs env opts).plannerName 1 = some p0 ∧
      f = configureAndRun env (commandLineArgs env opts) t pb
            (switchSpace t pb.constraint pb.x pb.y (commandLineArgs env opts).tb) p0
            [Out.banner (commandLineArgs env opts).space (commandLineArgs env opts).plannerName
              (commandLineArgs env opts).problem pb.constraint.ambientDimension
              pb.constraint.coDimension (commandLineArgs env opts).planningTime
              (commandLineArgs env opts).artificalSleep] := by
  by_cases hall : ∀ o ∈ opts, o.c ∈ optionChars
  · refine ⟨hall, ?_⟩
    have hl : optionLoop env opts {} = some (commandLineArgs env opts) :=
      optionLoop_eq_some env opts {} hall
    unfold main at h
    rw [hl] at h
    simp only at h
    cases hs : selectSpace (commandLineArgs env opts).space with
    | none => rw [hs] at h; simp [usage] at h
    | some t =>
      rw [hs] at h
      simp only at h
      cases hp : env.parseProblem (commandLineArgs env opts).problem
        (commandLineArgs env opts).artificalSleep (commandLineArgs env opts).links
        (commandLineArgs env opts).chains with
      | none => rw [hp] at h; simp [usage] at h
      | some pb =>
        rw [hp] at h
        simp only at h
        cases hq : env.parsePlanner (commandLineArgs env opts).plannerName 1 with
        | none => rw [hq] at h; simp [usage] at h
        | some p0 =>
          rw [hq] at h
          simp only [Result.returned.injEq] at h
          exact ⟨t, pb, p0, rfl, rfl, rfl, h.symm⟩
  · push_neg at hall
    have hl := optionLoop_eq_none env opts {} hall
    unfold main at h
    rw [hl] at h
    simp [usage] at h

theorem main_eq_returned (env : Env) (progname : String) (opts : List Opt) (t : SPACE)
    (pb : Problem) (p0 : Planner) (hall : ∀ o ∈ opts, o.c ∈ optionChars)
    (hs : selectSpace (commandLineArgs env opts).space = some t)
    (hp : env.parseProblem (commandLineArgs env opts).problem
        (commandLineArgs env opts).artificalSleep (commandLineArgs env opts).links
        (commandLineArgs env opts).chains = some pb)
    (hq : env.parsePlanner (commandLineArgs env opts).plannerName 1 = some p0) :
    main env progname opts =
      .returned (configureAndRun env (commandLineArgs env opts) t pb
            (switchSpace t pb.constraint pb.x pb.y (commandLineArgs env opts).tb) p0
            [Out.banner (commandLineArgs env opts).space (commandLineArgs env opts).plannerName
              (commandLineArgs env opts).problem pb.constraint.ambientDimension
              pb.constraint.coDimension (commandLineArgs env opts).planningTime
              (commandLineArgs env opts).artificalSleep]) := by
  have hl : optionLoop env opts {} = some (commandLineArgs env opts) :=
    optionLoop_eq_some env opts {} hall
  unfold main
  rw [hl]
  simp only
  rw [hs]
  simp only
  rw [hp]
  simp only
  rw [hq]

theorem configureAndRun_world (env : Env) (a : Args) (t : SPACE) (pb : Problem) (s : Setup)
    (p0 : Planner) (out : List Out) (hruns : a.runs < 4294967296) :
    ∃ o : Nat → TrialOutcome,
      (configureAndRun env a t pb s p0 out).world.events = sequentialCycles o a.runs 0 ∧
      (configureAndRun env a t pb s p0 out).world.out =
        (configureAndRun env a t pb s p0 out).configured.out ++
          (List.range a.runs).map (fun i => runLine (p0.name ++ s.newName) (i + 1)) ∧
      (configureAndRun env a t pb s p0 out).world.planner.name = p0.name ++ s.newName ∧
      (configureAndRun env a t pb s p0 out).world.css.low =
        (configureAndRun env a t pb s p0 out).configured.css.low ∧
      (configureAndRun env a t pb s p0 out).world.css.high =
        (configureAndRun env a t pb s p0 out).configured.css.high := by
  obtain ⟨o, he, ho, hp, hc⟩ :=
    cycles_spec env t a.runs 0 (configureAndRun env a t pb s p0 out).configured
      (by simp only [configureAndRun]; omega)
  have hw : (configureAndRun env a t pb s p0 out).world =
      cycles env (preRunEvent t) a.runs 0 (configureAndRun env a t pb s p0 out).configured := rfl
  have hn : (configureAndRun env a t pb s p0 out).configured.planner.name =
      p0.name ++ s.newName := by
    simp only [configureAndRun, tryProjection_name]
  refine ⟨o, ?_, ?_, ?_, ?_, ?_⟩
  · rw [hw, he]
    simp [configureAndRun]
  · rw [hw, ho, hn]
    have h1 : (configureAndRun env a t pb s p0 out).configured.run = 1 := rfl
    rw [h1]
    congr 1
    apply List.map_congr_left
    intro i _
    rw [Nat.add_comm]
  · rw [hw, hp]
    exact hn
  · rw [hw]
    conv_lhs => rw [hc]
  · rw [hw]
    conv_lhs => rw [hc]


/-! ## The trial controller -/

/-- C1: a run of `main` that reaches the trial controller executes exactly `runCount`
    cycles one after another, each the pre-run event followed by the trial, whatever the
    outcomes of the trials are; threads are disabled; and the pre-run event logs the run
    indices 1, 2, ..., `runCount` in this order, each with the planner name that carries
    the suffix of the space. -/
theorem trial_cycles_sequential (env : Env) (progname : String) (opts : List Opt)
    (f : Final) (h : main env progname opts = .returned f) :
    f.request.useThreads = false ∧
    f.world = benchmark env (preRunEvent f.spaceType) f.request f.configured ∧
    f.configured.events = [] ∧
    (∃ outcomes : Nat → TrialOutcome,
      f.world.events = sequentialCycles outcomes f.request.runCount 0) ∧
    (∀ o : Nat → TrialOutcome, (∀ j s p, (env.solve j s p).outcome = o j) →
      f.world.events = sequentialCycles o f.request.runCount 0) ∧
    f.world.events.length = 2 * f.request.runCount ∧
    f.world.out = f.configured.out ++
      (List.range f.request.runCount).map
        (fun i => runLine (f.originalName ++ suffixOf f.spaceType) (i + 1)) := by
  obtain ⟨_, t, pb, p0, _, _, _, rfl⟩ := main_returned env progname opts f h
  obtain ⟨o, he, ho, _, _, _⟩ :=
    configureAndRun_world env (commandLineArgs env opts) t pb
      (switchSpace t pb.constraint pb.x pb.y (commandLineArgs env opts).tb) p0
      [Out.banner (commandLineArgs env opts).space (commandLineArgs env opts).plannerName
        (commandLineArgs env opts).problem pb.constraint.ambientDimension
        pb.constraint.coDimension (commandLineArgs env opts).planningTime
        (commandLineArgs env opts).artificalSleep]
      (commandLineArgs_runs_lt env opts)
  refine ⟨rfl, rfl, rfl, ⟨o, he⟩, ?_, ?_, ?_⟩
  · intro o1 ho1
    have := cycles_events_of_outcomes env t o1 ho1 (commandLineArgs env opts).runs 0
      (configureAndRun env (commandLineArgs env opts) t pb
        (switchSpace t pb.constraint pb.x pb.y (commandLineArgs env opts).tb) p0
        [Out.banner (commandLineArgs env opts).space (commandLineArgs env opts).plannerName
          (commandLineArgs env opts).problem pb.constraint.ambientDimension
          pb.constraint.coDimension (commandLineArgs env opts).planningTime
          (commandLineArgs env opts).artificalSleep]).configured
    simpa [configureAndRun, benchmark] using this
  · rw [he, sequentialCycles_length]
    rfl
  · rw [ho, switchSpace_newName]
    rfl

/-- Witness for C1 on `-s atlas -c sphere -r 3 -t 1`. -/
theorem trial_cycles_sequential_witness :
    ∃ f, main sampleEnv "bench" atlasSphere = .returned f ∧
      f.request.runCount = 3 ∧
      f.world.events =
        [.preRun 0, .trial 0 .solved, .preRun 1, .trial 1 .timedOut,
         .preRun 2, .trial 2 .solved] ∧
      f.world.out = f.configured.out ++
        [.text "RRTConnect+A run 1\n", .text "RRTConnect+A run 2\n",
         .text "RRTConnect+A run 3\n"] :=
  ⟨_, rfl, rfl,
    (trial_cycles_sequential sampleEnv "bench" atlasSphere _ rfl).2.2.2.2.1
      (fun j => if j % 2 = 0 then .solved else .timedOut) (fun _ _ _ => rfl),
    (trial_cycles_sequential sampleEnv "bench" atlasSphere _ rfl).2.2.2.2.2.2⟩


/-- C2: for each of the three spaces and every state of the space and of the planner, the
    pre-run event leaves the cache of the space empty and the search state of the planner
    empty, and keeps the planner with its name, range and projection; in the atlas the
    space has no chart afterwards, also when it held the two anchor charts made for the
    start and the goal. -/
theorem preRunEvent_resets (t : SPACE) (w : World) (c : Constraint) (x y : Point)
    (tb : Bool) :
    (preRunEvent t w).css.cache = [] ∧
    (preRunEvent t w).planner.searchState = [] ∧
    (preRunEvent t w).planner = { w.planner with searchState := [] } ∧
    (preRunEvent t w).planner.name = w.planner.name ∧
    (preRunEvent .ATLAS w).css.charts = [] ∧
    (switchSpace .ATLAS c x y tb).css.charts =
      [{ origin := x, anchor := true }, { origin := y, anchor := true }] ∧
    (preRunEvent .ATLAS { w with css := (switchSpace .ATLAS c x y tb).css }).css.charts = [] := by
  refine ⟨?_, rfl, rfl, rfl, rfl, rfl, rfl⟩
  cases t <;> rfl

/-! ## The selection of the space -/

/-- C3: the space name, which is the argument of the last `-s` or `projected` when there
    is none, selects the space: `atlas` the atlas, `projected` the projected space, `null`
    the nullspace space, and nothing else selects one. The setup agrees with the selected
    space: the atlas gets the atlas sampler allocator, a chart anchored at the start point
    and one at the goal point, and each endpoint attached to its own chart; the other two
    spaces get the projection allocator and endpoints made from the raw points without a
    chart. So the atlas allocator comes with chart anchoring and only with it. -/
theorem space_selection_agrees (env : Env) (progname : String) (opts : List Opt)
    (f : Final) (h : main env progname opts = .returned f) :
    selectSpace ((lastArg 's' opts).getD "projected") = some f.spaceType ∧
    (∀ name t, selectSpace name = some t ↔
      (name = "atlas" ∧ t = .ATLAS) ∨ (name = "projected" ∧ t = .PROJECTED) ∨
        (name = "null" ∧ t = .NULLSPACE)) ∧
    f.setup = switchSpace f.spaceType f.problem.constraint f.problem.x f.problem.y
      f.args.tb ∧
    f.setup.css.kind = f.spaceType ∧
    f.setup.allocator = (if f.spaceType = .ATLAS then .avssa else .pvssa) ∧
    f.setup.css.charts =
      (if f.spaceType = .ATLAS then
        [{ origin := f.problem.x, anchor := true }, { origin := f.problem.y, anchor := true }]
       else []) ∧
    f.setup.start =
      { real := f.problem.x, chart := if f.spaceType = .ATLAS then some 0 else none } ∧
    f.setup.goal =
      { real := f.problem.y, chart := if f.spaceType = .ATLAS then some 1 else none } ∧
    (f.setup.allocator = .avssa ↔ f.setup.start.chart ≠ none ∧ f.setup.goal.chart ≠ none) ∧
    (f.setup.allocator = .pvssa ↔ f.setup.start.chart = none ∧ f.setup.goal.chart = none) := by
  obtain ⟨_, t, pb, p0, hs, _, _, rfl⟩ := main_returned env progname opts f h
  refine ⟨hs, ?_, rfl, ?_⟩
  · intro name t1
    unfold selectSpace
    constructor
    · intro hsel
      split_ifs at hsel with h1 h2 h3 <;> simp_all
    · rintro (⟨rfl, rfl⟩ | ⟨rfl, rfl⟩ | ⟨rfl, rfl⟩) <;> decide
  · simp only [configureAndRun]
    cases t <;> simp [switchSpace, anchorChart]

/-- Witness for C3 on `-s atlas -c sphere -r 3 -t 1`. -/
theorem space_selection_agrees_witness :
    ∃ f, main sampleEnv "bench" atlasSphere = .returned f ∧
      f.spaceType = .ATLAS ∧ f.setup.allocator = .avssa ∧
      f.setup.start = { real := [0, 0, -1], chart := some 0 } ∧
      f.setup.goal = { real := [0, 0, 1], chart := some 1 } :=
  ⟨_, rfl, rfl, rfl,
    (space_selection_agrees sampleEnv "bench" atlasSphere _ rfl).2.2.2.2.2.2.1,
    (space_selection_agrees sampleEnv "bench" atlasSphere _ rfl).2.2.2.2.2.2.2.1⟩

/-! ## The planner name -/

/-- C5: the planner that `main` configures has the name the catalog gave it followed by
    `+A` in the atlas, `+P` in the projected space and `+N` in the nullspace space; the
    name is the same after the trials, and it is the name in every line the pre-run
    event logs. -/
theorem planner_display_name (env : Env) (progname : String) (opts : List Opt)
    (f : Final) (h : main env progname opts = .returned f) :
    (∃ p0, env.parsePlanner ((lastArg 'p' opts).getD "RRTConnect") 1 = some p0 ∧
      f.originalName = p0.name) ∧
    selectSpace ((lastArg 's' opts).getD "projected") = some f.spaceType ∧
    f.configured.planner.name = f.originalName ++ suffixOf f.spaceType ∧
    f.world.planner.name = f.originalName ++ suffixOf f.spaceType ∧
    f.world.out = f.configured.out ++
      (List.range f.request.runCount).map
        (fun i => runLine (f.originalName ++ suffixOf f.spaceType) (i + 1)) := by
  obtain ⟨_, t, pb, p0, hs, _, hq, rfl⟩ := main_returned env progname opts f h
  obtain ⟨o, _, ho, hn, _, _⟩ :=
    configureAndRun_world env (commandLineArgs env opts) t pb
      (switchSpace t pb.constraint pb.x pb.y (commandLineArgs env opts).tb) p0
      [Out.banner (commandLineArgs env opts).space (commandLineArgs env opts).plannerName
        (commandLineArgs env opts).problem pb.constraint.ambientDimension
        pb.constraint.coDimension (commandLineArgs env opts).planningTime
        (commandLineArgs env opts).artificalSleep]
      (commandLineArgs_runs_lt env opts)
  rw [switchSpace_newName] at hn ho
  refine ⟨⟨p0, hq, rfl⟩, hs, ?_, hn, ho⟩
  simp only [configureAndRun, tryProjection_name, switchSpace_newName]

/-- Witness for C5 on `-p KPIECE1 -c sphere -r 1 -s null`. -/
theorem planner_display_name_witness :
    ∃ f, main sampleEnv "bench" kpieceSphere = .returned f ∧
      f.originalName = "KPIECE1" ∧ f.spaceType = .NULLSPACE ∧
      f.world.planner.name = "KPIECE1+N" :=
  ⟨_, rfl, rfl, rfl,
    (planner_display_name sampleEnv "bench" kpieceSphere _ rfl).2.2.2.1⟩


/-! ## Bounds -/

/-- C6: when `main` gets to the bounds, the bound is the link count, that is the
    converted argument of the last `-n` or 5 when there is none, if the problem name is
    `chain`, and 20 for every other problem name; the space gets the lower bound minus
    the bound and the upper bound the bound on each of its ambient dimensions, and the
    trials leave the bounds as they are. -/
theorem bounds_symmetric (env : Env) (progname : String) (opts : List Opt)
    (f : Final) (h : main env progname opts = .returned f) :
    f.bound =
      (if (lastArg 'c' opts).getD "sphere" = "chain" then
        (((lastArg 'n' opts).elim 5 (fun s => toUnsigned (atoi s)) : Nat) : Rat)
       else 20) ∧
    f.configured.css.ambientDimension = f.problem.constraint.ambientDimension ∧
    f.configured.css.low = List.replicate f.problem.constraint.ambientDimension (-f.bound) ∧
    f.configured.css.high = List.replicate f.problem.constraint.ambientDimension f.bound ∧
    f.world.css.low = List.replicate f.problem.constraint.ambientDimension (-f.bound) ∧
    f.world.css.high = List.replicate f.problem.constraint.ambientDimension f.bound := by
  obtain ⟨_, t, pb, p0, _, _, _, rfl⟩ := main_returned env progname opts f h
  obtain ⟨o, _, _, _, hl, hh⟩ :=
    configureAndRun_world env (commandLineArgs env opts) t pb
      (switchSpace t pb.constraint pb.x pb.y (commandLineArgs env opts).tb) p0
      [Out.banner (commandLineArgs env opts).space (commandLineArgs env opts).plannerName
        (commandLineArgs env opts).problem pb.constraint.ambientDimension
        pb.constraint.coDimension (commandLineArgs env opts).planningTime
        (commandLineArgs env opts).artificalSleep]
      (commandLineArgs_runs_lt env opts)
  have hd : (switchSpace t pb.constraint pb.x pb.y (commandLineArgs env opts).tb).css.ambientDimension
      = pb.constraint.ambientDimension := by
    cases t <;> rfl
  refine ⟨rfl, ?_, ?_, ?_, ?_, ?_⟩
  · simpa [configureAndRun, setBounds, registerProjection] using hd
  · simp [configureAndRun, setBounds, registerProjection, hd]
  · simp [configureAndRun, setBounds, registerProjection, hd]
  · rw [hl]
    simp [configureAndRun, setBounds, registerProjection, hd]
  · rw [hh]
    simp [configureAndRun, setBounds, registerProjection, hd]

/-- Witness for C6 on `-s projected -c chain -n 7 -r 2`. -/
theorem bounds_symmetric_witness :
    ∃ f, main sampleEnv "bench" projectedChain = .returned f ∧
      f.bound = 7 ∧
      f.configured.css.low = List.replicate 21 (-7) ∧
      f.configured.css.high = List.replicate 21 7 :=
  ⟨_, rfl, by decide,
    (bounds_symmetric sampleEnv "bench" projectedChain _ rfl).2.2.1,
    (bounds_symmetric sampleEnv "bench" projectedChain _ rfl).2.2.2.1⟩


/-! ## Saving the results -/

/-- C7: a run of `main` that gets to its end saves the results to exactly one destination:
    the argument of the last `-f` when there is one, and otherwise the planner name with
    its suffix, followed by `_on_`, the problem name from the command line and `.log`. -/
theorem results_destination (env : Env) (progname : String) (opts : List Opt)
    (f : Final) (h : main env progname opts = .returned f) :
    f.saved =
      [match lastArg 'f' opts with
       | some path => path
       | none => (f.originalName ++ suffixOf f.spaceType) ++ "_on_" ++
           (lastArg 'c' opts).getD "sphere" ++ ".log"] := by
  obtain ⟨_, t, pb, p0, _, _, _, rfl⟩ := main_returned env progname opts f h
  obtain ⟨o, _, _, hn, _, _⟩ :=
    configureAndRun_world env (commandLineArgs env opts) t pb
      (switchSpace t pb.constraint pb.x pb.y (commandLineArgs env opts).tb) p0
      [Out.banner (commandLineArgs env opts).space (commandLineArgs env opts).plannerName
        (commandLineArgs env opts).problem pb.constraint.ambientDimension
        pb.constraint.coDimension (commandLineArgs env opts).planningTime
        (commandLineArgs env opts).artificalSleep]
      (commandLineArgs_runs_lt env opts)
  rw [switchSpace_newName] at hn
  have hsaved : (configureAndRun env (commandLineArgs env opts) t pb
      (switchSpace t pb.constraint pb.x pb.y (commandLineArgs env opts).tb) p0
      [Out.banner (commandLineArgs env opts).space (commandLineArgs env opts).plannerName
        (commandLineArgs env opts).problem pb.constraint.ambientDimension
        pb.constraint.coDimension (commandLineArgs env opts).planningTime
        (commandLineArgs env opts).artificalSleep]).saved =
      [match (commandLineArgs env opts).output with
       | none => (configureAndRun env (commandLineArgs env opts) t pb
          (switchSpace t pb.constraint pb.x pb.y (commandLineArgs env opts).tb) p0
          [Out.banner (commandLineArgs env opts).space (commandLineArgs env opts).plannerName
            (commandLineArgs env opts).problem pb.constraint.ambientDimension
            pb.constraint.coDimension (commandLineArgs env opts).planningTime
            (commandLineArgs env opts).artificalSleep]).world.planner.name ++ "_on_" ++
            (commandLineArgs env opts).problem ++ ".log"
       | some o => o] := rfl
  rw [hsaved, hn]
  have hout : (commandLineArgs env opts).output = lastArg 'f' opts := by
    simp only [commandLineArgs, overrideArgs]
    cases lastArg 'f' opts <;> rfl
  rw [hout]
  cases lastArg 'f' opts <;> rfl

/-- Witness for C7 on `-s atlas -c sphere -r 3 -t 1`, which has no `-f`. -/
theorem results_destination_witness :
    ∃ f, main sampleEnv "bench" atlasSphere = .returned f ∧
      f.saved = ["RRTConnect+A_on_sphere.log"] :=
  ⟨_, rfl, results_destination sampleEnv "bench" atlasSphere _ rfl⟩

/-! ## The projection of the planner -/

/-- C8: `main` tries to set a projection exactly when the planner name of the command line
    is one of KPIECE1, BKPIECE1, LBKPIECE1, ProjEST, PDST, SBL, STRIDE, and then with the
    problem name as the projection name, the projections `sphere`, `chain` and `stewart`
    being registered; the planner has the projection afterwards when it accepts one and
    the problem name is registered, and is otherwise the renamed catalog planner as it
    was. Whether the planner accepts a projection or raises, `main` gets to its end with
    the same bound, space, request, log lines, number of cycles and destination. -/
theorem projection_binding_best_effort (env : Env) (progname : String) (opts : List Opt)
    (f : Final) (h : main env progname opts = .returned f) :
    f.bindAttempt =
      (if (lastArg 'p' opts).getD "RRTConnect" ∈ projectionPlanners then
        some ((lastArg 'p' opts).getD "RRTConnect", (lastArg 'c' opts).getD "sphere")
       else none) ∧
    f.configured.css.projections.map Prod.fst = ["sphere", "chain", "stewart"] ∧
    (∃ p0, env.parsePlanner ((lastArg 'p' opts).getD "RRTConnect") 1 = some p0 ∧
      f.configured.planner =
        (if (lastArg 'p' opts).getD "RRTConnect" ∈ projectionPlanners ∧
            env.acceptsProjection { p0 with name := p0.name ++ suffixOf f.spaceType } = true ∧
            (lastArg 'c' opts).getD "sphere" ∈ ["sphere", "chain", "stewart"] then
          { p0 with name := p0.name ++ suffixOf f.spaceType,
                    projection := some ((lastArg 'c' opts).getD "sphere") }
         else { p0 with name := p0.name ++ suffixOf f.spaceType })) ∧
    (∀ accepts : Planner → Bool, ∃ f1,
      main { env with acceptsProjection := accepts } progname opts = .returned f1 ∧
      f1.bound = f.bound ∧ f1.configured.css = f.configured.css ∧
      f1.request = f.request ∧ f1.world.out = f.world.out ∧
      f1.world.events.length = f.world.events.length ∧ f1.saved = f.saved) := by
  obtain ⟨hall, t, pb, p0, hs, hp, hq, rfl⟩ := main_returned env progname opts f h
  have hpl : (lastArg 'p' opts).getD "RRTConnect" = (commandLineArgs env opts).plannerName :=
    rfl
  have hpr : (lastArg 'c' opts).getD "sphere" = (commandLineArgs env opts).problem := rfl
  rw [hpl, hpr]
  refine ⟨?_, ?_, ⟨p0, hq, ?_⟩, ?_⟩
  · simp only [configureAndRun, projectionCast_eq]
    split_ifs <;> rfl
  · simpa [configureAndRun, setBounds] using
      registered_names t pb.constraint pb.x pb.y (commandLineArgs env opts).tb
        (commandLineArgs env opts).links (commandLineArgs env opts).chains
  · have hreg := registered_names t pb.constraint pb.x pb.y (commandLineArgs env opts).tb
      (commandLineArgs env opts).links (commandLineArgs env opts).chains
    simp only [configureAndRun, tryProjection, setProjectionEvaluator, projectionCast_eq,
      switchSpace_newName, hreg]
    by_cases h1 : (commandLineArgs env opts).plannerName ∈ projectionPlanners
    · by_cases h2 : env.acceptsProjection
          { p0 with name := p0.name ++ suffixOf t } = true ∧
          (commandLineArgs env opts).problem ∈ ["sphere", "chain", "stewart"]
      · simp only [h1, h2, if_true, and_self]
      · have h3 : ¬ ((commandLineArgs env opts).plannerName ∈ projectionPlanners ∧
            env.acceptsProjection { p0 with name := p0.name ++ suffixOf t } = true ∧
            (commandLineArgs env opts).problem ∈ ["sphere", "chain", "stewart"]) :=
          fun hh => h2 hh.2
        simp only [h1, h2, h3, if_true, if_false, and_false, false_and, and_self]
    · have h3 : ¬ ((commandLineArgs env opts).plannerName ∈ projectionPlanners ∧
          env.acceptsProjection { p0 with name := p0.name ++ suffixOf t } = true ∧
          (commandLineArgs env opts).problem ∈ ["sphere", "chain", "stewart"]) :=
        fun hh => h1 hh.1
      simp only [h1, h3, if_false, false_and]
  · intro accepts
    have hm := main_eq_returned { env with acceptsProjection := accepts } progname opts t pb p0
      hall hs hp hq
    obtain ⟨o, he, ho, hn, _, _⟩ :=
      configureAndRun_world env (commandLineArgs env opts) t pb
        (switchSpace t pb.constraint pb.x pb.y (commandLineArgs env opts).tb) p0
        [Out.banner (commandLineArgs env opts).space (commandLineArgs env opts).plannerName
          (commandLineArgs env opts).problem pb.constraint.ambientDimension
          pb.constraint.coDimension (commandLineArgs env opts).planningTime
          (commandLineArgs env opts).artificalSleep]
        (commandLineArgs_runs_lt env opts)
    obtain ⟨o1, he1, ho1, hn1, _, _⟩ :=
      configureAndRun_world { env with acceptsProjection := accepts } (commandLineArgs env opts)
        t pb (switchSpace t pb.constraint pb.x pb.y (commandLineArgs env opts).tb) p0
        [Out.banner (commandLineArgs env opts).space (commandLineArgs env opts).plannerName
          (commandLineArgs env opts).problem pb.constraint.ambientDimension
          pb.constraint.coDimension (commandLineArgs env opts).planningTime
          (commandLineArgs env opts).artificalSleep]
        (commandLineArgs_runs_lt env opts)
    refine ⟨_, hm, rfl, rfl, rfl, ?_, ?_, ?_⟩
    · exact ho1.trans ho.symm
    · exact (congrArg List.length he1).trans
        ((sequentialCycles_length o1 _ 0).trans
          ((sequentialCycles_length o _ 0).symm.trans (congrArg List.length he).symm))
    · have e1 : ∀ (e : Env) (w : String),
          (configureAndRun e (commandLineArgs env opts) t pb
            (switchSpace t pb.constraint pb.x pb.y (commandLineArgs env opts).tb) p0
            [Out.banner (commandLineArgs env opts).space
              (commandLineArgs env opts).plannerName
              (commandLineArgs env opts).problem pb.constraint.ambientDimension
              pb.constraint.coDimension (commandLineArgs env opts).planningTime
              (commandLineArgs env opts).artificalSleep]).world.planner.name = w →
          (configureAndRun e (commandLineArgs env opts) t pb
            (switchSpace t pb.constraint pb.x pb.y (commandLineArgs env opts).tb) p0
            [Out.banner (commandLineArgs env opts).space
              (commandLineArgs env opts).plannerName
              (commandLineArgs env opts).problem pb.constraint.ambientDimension
              pb.constraint.coDimension (commandLineArgs env opts).planningTime
              (commandLineArgs env opts).artificalSleep]).saved =
            [match (commandLineArgs env opts).output with
             | none => w ++ "_on_" ++ (commandLineArgs env opts).problem ++ ".log"
             | some o => o] := by
        intro e w hw
        rw [← hw]
        rfl
      exact (e1 _ _ hn1).trans (e1 _ _ hn).symm


/-- Witness for C8 on `-p KPIECE1 -c sphere -r 1 -s null`, also with a planner that
    raises on every projection. -/
theorem projection_binding_best_effort_witness :
    ∃ f, main sampleEnv "bench" kpieceSphere = .returned f ∧
      f.bindAttempt = some ("KPIECE1", "sphere") ∧
      f.configured.planner.projection = some "sphere" ∧
      ∃ f1, main { sampleEnv with acceptsProjection := fun _ => false } "bench" kpieceSphere =
          .returned f1 ∧
        f1.configured.planner.projection = none ∧
        f1.bound = f.bound ∧ f1.configured.css = f.configured.css ∧
        f1.request = f.request ∧ f1.world.out = f.world.out ∧
        f1.world.events.length = f.world.events.length ∧ f1.saved = f.saved :=
  ⟨_, rfl, (projection_binding_best_effort sampleEnv "bench" kpieceSphere _ rfl).1, rfl,
    (projection_binding_best_effort sampleEnv "bench" kpieceSphere _ rfl).2.2.2
      (fun _ => false) |>.elim (fun f1 h1 => ⟨f1, h1.1, by
        have h2 := h1.1
        have h3 : main { sampleEnv with acceptsProjection := fun _ => false } "bench"
            kpieceSphere = .returned _ := rfl
        rw [h3] at h2
        cases h2
        rfl, h1.2⟩)⟩

/-! ## Validity of the endpoints -/

/-- C9, as stated, fails: on `-r 2` the catalog gives the sphere problem whose start point
    the validity predicate rejects, and `main` runs both cycles to the end. -/
theorem endpoint_validity_counterexample :
    ∃ f, main sampleEnv "bench" twoRuns = .returned f ∧
      f.validityChecker f.setup.start.real = false ∧
      f.request.runCount = 2 ∧
      f.world.events = [.preRun 0, .trial 0 .solved, .preRun 1, .trial 1 .timedOut] :=
  ⟨_, rfl, by decide, rfl, rfl⟩

/-- C9, amended: whenever the options, the space name, the problem name and the planner
    name are accepted, `main` gets to its end whatever the validity predicate of the
    problem says about the start and the goal: it installs the predicate as the validity
    checker without evaluating it, makes the endpoints from the two points of the problem,
    and the trial controller runs all `runCount` cycles. -/
theorem endpoint_validity_not_checked (env : Env) (progname : String) (opts : List Opt)
    (t : SPACE) (pb : Problem) (p0 : Planner)
    (hall : ∀ o ∈ opts, o.c ∈ optionChars)
    (hs : selectSpace (commandLineArgs env opts).space = some t)
    (hp : env.parseProblem (commandLineArgs env opts).problem
        (commandLineArgs env opts).artificalSleep (commandLineArgs env opts).links
        (commandLineArgs env opts).chains = some pb)
    (hq : env.parsePlanner (commandLineArgs env opts).plannerName 1 = some p0) :
    ∃ f, main env progname opts = .returned f ∧
      f.validityChecker = pb.isValid ∧
      f.setup.start.real = pb.x ∧ f.setup.goal.real = pb.y ∧
      f.request.runCount = (commandLineArgs env opts).runs ∧
      f.world.events.length = 2 * (commandLineArgs env opts).runs := by
  obtain ⟨o, he, _, _, _, _⟩ :=
    configureAndRun_world env (commandLineArgs env opts) t pb
      (switchSpace t pb.constraint pb.x pb.y (commandLineArgs env opts).tb) p0
      [Out.banner (commandLineArgs env opts).space (commandLineArgs env opts).plannerName
        (commandLineArgs env opts).problem pb.constraint.ambientDimension
        pb.constraint.coDimension (commandLineArgs env opts).planningTime
        (commandLineArgs env opts).artificalSleep]
      (commandLineArgs_runs_lt env opts)
  refine ⟨_, main_eq_returned env progname opts t pb p0 hall hs hp hq, rfl, ?_, ?_, rfl, ?_⟩
  · cases t <;> rfl
  · cases t <;> rfl
  · rw [he, sequentialCycles_length]

/-- Witness for the amended C9 on `-r 2`. -/
theorem endpoint_validity_not_checked_witness :
    ∃ f, main sampleEnv "bench" twoRuns = .returned f ∧
      f.validityChecker = (fun p => decide (p ≠ [0, 0, -1])) ∧
      f.setup.start.real = [0, 0, -1] ∧ f.setup.goal.real = [0, 0, 1] ∧
      f.request.runCount = 2 ∧ f.world.events.length = 2 * 2 :=
  endpoint_validity_not_checked sampleEnv "bench" twoRuns .PROJECTED
    { constraint := { ambientDimension := 3, coDimension := 1 },
      x := [0, 0, -1], y := [0, 0, 1], isValid := fun p => decide (p ≠ [0, 0, -1]) }
    { name := "RRTConnect", range := 1 } (by decide) rfl rfl rfl

/-! ## The trial request -/

/-- C10, as stated, fails: `-r 0` reaches the trial controller with `runCount` 0, and
    `-t 0` with a time limit of 0. -/
theorem request_invariant_counterexample :
    (∃ f, main sampleEnv "bench" zeroRuns = .returned f ∧ f.request.runCount = 0 ∧
      ¬ (1 ≤ f.request.runCount ∧ 0 < f.request.maxTime)) ∧
    (∃ f, main sampleEnv "bench" zeroTime = .returned f ∧ f.request.maxTime = 0 ∧
      ¬ (1 ≤ f.request.runCount ∧ 0 < f.request.maxTime)) :=
  ⟨⟨_, rfl, rfl, fun h => absurd h.1 (by decide)⟩,
   ⟨_, rfl, by decide, fun h => absurd h.2 (by decide)⟩⟩

/-- C10, amended: the trial request carries as `runCount` the argument of the last `-r`
    read by `atoi` and converted to `unsigned int`, or 100 without `-r`, and as time limit
    the argument of the last `-t` read by `atof`, or 5 without `-t`; the other fields are
    the constants of the file. So `runCount ≥ 1` and a positive time limit hold exactly
    when these converted values are positive, as they are when neither option is given. -/
theorem request_from_options (env : Env) (progname : String) (opts : List Opt)
    (f : Final) (h : main env progname opts = .returned f) :
    f.request =
      { maxTime := (lastArg 't' opts).elim 5 env.atof, maxMem := 2048,
        runCount := (lastArg 'r' opts).elim 100 (fun s => toUnsigned (atoi s)),
        timeBetweenUpdates := 1 / 10, displayProgress := false,
        saveConsoleOutput := false, useThreads := false, simplify := true } ∧
    f.request.runCount < 4294967296 ∧
    ((1 ≤ f.request.runCount ∧ 0 < f.request.maxTime) ↔
      ((∀ s, lastArg 'r' opts = some s → 1 ≤ toUnsigned (atoi s)) ∧
       (∀ s, lastArg 't' opts = some s → 0 < env.atof s))) := by
  obtain ⟨_, t, pb, p0, _, _, _, rfl⟩ := main_returned env progname opts f h
  refine ⟨rfl, commandLineArgs_runs_lt env opts, ?_⟩
  simp only [configureAndRun, commandLineArgs, overrideArgs]
  cases lastArg 'r' opts <;> cases lastArg 't' opts <;> simp

/-- Witness for the amended C10 on `-s atlas -c sphere -r 3 -t 1`. -/
theorem request_from_options_witness :
    ∃ f, main sampleEnv "bench" atlasSphere = .returned f ∧
      f.request.runCount = 3 ∧ f.request.maxTime = 1 ∧
      (1 ≤ f.request.runCount ∧ 0 < f.request.maxTime) :=
  ⟨_, rfl, rfl, by decide,
    (request_from_options sampleEnv "bench" atlasSphere _ rfl).2.2.mpr
      ⟨fun s hs => by cases hs; decide, fun s hs => by cases hs; decide⟩⟩


/-! ## Configuration errors -/

/-- C4: when the command line has an option without a `case` label (an option that
    `getopt` does not know arrives as `?`), or the space name is none of `atlas`,
    `projected`, `null`, or the catalog does not resolve the problem name or the planner
    name, `main` ends in `usage`: the usage line and the two catalog listings are the last
    output, the exit status is 0, no cycle of the trial controller ran and no result was
    saved. The process ends there, so the name is not looked up again and no default takes
    its place. -/
theorem invalid_configuration_exits (env : Env) (progname : String) (opts : List Opt)
    (h : (∃ o ∈ opts, o.c ∉ optionChars) ∨
      ((lastArg 's' opts).getD "projected" ≠ "atlas" ∧
        (lastArg 's' opts).getD "projected" ≠ "projected" ∧
        (lastArg 's' opts).getD "projected" ≠ "null") ∨
      env.parseProblem ((lastArg 'c' opts).getD "sphere")
        (commandLineArgs env opts).artificalSleep (commandLineArgs env opts).links
        (commandLineArgs env opts).chains = none ∨
      env.parsePlanner ((lastArg 'p' opts).getD "RRTConnect") 1 = none) :
    (∃ pre, main env progname opts = .exited 0 (pre ++ usageText progname)) ∧
    (main env progname opts).final = none ∧
    (main env progname opts).events = [] ∧
    (main env progname opts).saved = [] := by
  have key : ∃ pre, main env progname opts = .exited 0 (pre ++ usageText progname) := by
    by_cases hall : ∀ o ∈ opts, o.c ∈ optionChars
    · have hl : optionLoop env opts {} = some (commandLineArgs env opts) :=
        optionLoop_eq_some env opts {} hall
      unfold main
      rw [hl]
      simp only
      cases hs : selectSpace (commandLineArgs env opts).space with
      | none => exact ⟨_, rfl⟩
      | some t =>
        simp only
        cases hp : env.parseProblem (commandLineArgs env opts).problem
          (commandLineArgs env opts).artificalSleep (commandLineArgs env opts).links
          (commandLineArgs env opts).chains with
        | none => exact ⟨_, rfl⟩
        | some pb =>
          simp only
          cases hq : env.parsePlanner (commandLineArgs env opts).plannerName 1 with
          | none => exact ⟨_, rfl⟩
          | some p0 =>
            exfalso
            rcases h with hbad | hspace | hprob | hplan
            · obtain ⟨o, ho, hc⟩ := hbad
              exact hc (hall o ho)
            · have hsp : (lastArg 's' opts).getD "projected" = (commandLineArgs env opts).space :=
                rfl
              rw [hsp] at hspace
              unfold selectSpace at hs
              simp [hspace.1, hspace.2.1, hspace.2.2] at hs
            · have hpr : (lastArg 'c' opts).getD "sphere" = (commandLineArgs env opts).problem :=
                rfl
              rw [hpr, hp] at hprob
              cases hprob
            · have hpl : (lastArg 'p' opts).getD "RRTConnect" =
                  (commandLineArgs env opts).plannerName := rfl
              rw [hpl, hq] at hplan
              cases hplan
    · push_neg at hall
      have hl := optionLoop_eq_none env opts {} hall
      unfold main
      rw [hl]
      exact ⟨[], rfl⟩
  obtain ⟨pre, hpre⟩ := key
  refine ⟨⟨pre, hpre⟩, ?_, ?_, ?_⟩ <;> rw [hpre] <;> rfl

/-- Witness for C4 on `-p NoSuchPlanner`. -/
theorem invalid_configuration_exits_witness :
    (∃ pre, main sampleEnv "bench" unknownPlanner = .exited 0 (pre ++ usageText "bench")) ∧
    (main sampleEnv "bench" unknownPlanner).final = none ∧
    (main sampleEnv "bench" unknownPlanner).events = [] ∧
    (main sampleEnv "bench" unknownPlanner).saved = [] :=
  invalid_configuration_exits sampleEnv "bench" unknownPlanner (Or.inr (Or.inr (Or.inr rfl)))

end ConstrainedBenchmark
